import Mathlib

/-!
Shallow embedding of `main.go` from the `janeiro_Desafio2_Multithreading`
repository: a CEP (postal code) lookup that races two HTTP data sources
(BrasilAPI and ViaCEP) under a 1-second context deadline, using two
buffered channels of capacity 2 and one `select` with three cases
(context done, result channel, error channel).

The file is organised as:
* the data model (`Endereco`, the two provider response shapes, errors);
* the two fetch functions `buscaBrasilAPI` and `buscaViaCEP`, pure
  functions of the CEP string and an HTTP environment (Go's network and
  JSON decoding are abstracted as an environment mapping context and URL
  to an HTTP outcome);
* a small operational model of `main`'s race: channel/select state, a
  scheduler event alphabet (task completion, deadline firing, select
  commit with an adversarial case choice, matching Go's arbitrary choice
  among simultaneously ready `select` cases), and a `run` function folding
  a schedule over the state;
* the second, duplicated copy of the program (after the file separator in
  the repository) embedded once more as `copy2` definitions;
* theorems settling the specification claims.
-/

/-- The unified address record (`Endereco` struct in `main.go`, copy 1,
lines 13-20). All fields are strings; `Fonte` records the source API. -/
structure Endereco where
  CEP        : String
  Logradouro : String
  Bairro     : String
  Cidade     : String
  UF         : String
  Fonte      : String
deriving Repr, DecidableEq

/-- The zero value `Endereco{}` that the Go fetch functions start from and
return unchanged on every error path. -/
def Endereco.zero : Endereco :=
  { CEP := "", Logradouro := "", Bairro := "", Cidade := "", UF := "", Fonte := "" }

/-- Decoded shape of a BrasilAPI response (`brasilAPIResponse`, lines 23-29). -/
structure brasilAPIResponse where
  Cep          : String
  State        : String
  City         : String
  Neighborhood : String
  Street       : String
deriving Repr, DecidableEq

/-- Decoded shape of a ViaCEP response (`viaCEPResponse`, lines 32-38). -/
structure viaCEPResponse where
  Cep        : String
  Logradouro : String
  Bairro     : String
  Localidade : String
  Uf         : String
deriving Repr, DecidableEq

/-- The errors a fetch function can return, one constructor per `return`
site in the Go code: `http.NewRequestWithContext` failure, a transport
error from `http.DefaultClient.Do`, a non-200 status (the `fmt.Errorf`
message), or a `json.Decoder.Decode` failure. Each carries the error
message string. -/
inductive FetchError where
  | newRequest (msg : String)
  | doRequest  (msg : String)
  | badStatus  (msg : String)
  | jsonDecode (msg : String)
deriving Repr, DecidableEq

/-- Extracts the human-readable message of a fetch error (what `%v`
formatting prints for it in `log.Printf`). -/
def FetchError.message : FetchError → String
  | .newRequest msg => msg
  | .doRequest msg  => msg
  | .badStatus msg  => msg
  | .jsonDecode msg => msg

/-- A Go `context.Context` as the fetch functions observe it. The code
only threads the context into `http.NewRequestWithContext`, so its effect
on a fetch is entirely mediated by the HTTP environment; we keep the
cancellation flag explicit so equivalence statements can quantify over
contexts. -/
structure Context where
  cancelled : Bool
deriving Repr, DecidableEq

/-- The possible outcomes of one HTTP GET in the code, decided by the
environment: request creation fails, the transport call fails (including
a context-cancellation error), or a response arrives with a status code
and a body whose JSON decoding into `α` either succeeds or fails. -/
inductive HTTPOutcome (α : Type) where
  | newRequestError (msg : String)
  | transportError  (msg : String)
  | response (statusCode : Nat) (body : Except String α)
deriving Repr

/-- An HTTP environment: what the network and JSON decoder do for a given
context and URL. -/
abbrev Net (α : Type) := Context → String → HTTPOutcome α

/-- The URL built by `buscaBrasilAPI` (line 44):
`fmt.Sprintf("https://brasilapi.com.br/api/cep/v1/%s", cep)`. -/
def brasilAPIURL (cep : String) : String :=
  "https://brasilapi.com.br/api/cep/v1/" ++ cep

/-- The URL built by `buscaViaCEP` (line 96):
`fmt.Sprintf("http://viacep.com.br/ws/%s/json/", cep)`. -/
def viaCEPURL (cep : String) : String :=
  "http://viacep.com.br/ws/" ++ cep ++ "/json/"

/-- `buscaBrasilAPI` (copy 1, lines 41-90): builds the URL, performs the
request, rejects a non-200 status, decodes the body, and maps the decoded
fields into `Endereco` with `Fonte = "BrasilAPI"`. Every error path
returns the untouched zero `endereco` together with the error, mirroring
the Go `(Endereco, error)` pair. -/
def buscaBrasilAPI (ctx : Context) (cep : String) (net : Net brasilAPIResponse) :
    Endereco × Option FetchError :=
  let endereco := Endereco.zero
  match net ctx (brasilAPIURL cep) with
  | .newRequestError msg => (endereco, some (.newRequest msg))
  | .transportError msg  => (endereco, some (.doRequest msg))
  | .response statusCode body =>
    if statusCode ≠ 200 then
      (endereco, some (.badStatus ("BrasilAPI retornou status " ++ toString statusCode)))
    else
      match body with
      | .error msg => (endereco, some (.jsonDecode msg))
      | .ok data =>
        ({ CEP := data.Cep, Logradouro := data.Street, Bairro := data.Neighborhood,
           Cidade := data.City, UF := data.State, Fonte := "BrasilAPI" }, none)

/-- `buscaViaCEP` (copy 1, lines 93-142): same structure as
`buscaBrasilAPI` with the ViaCEP URL, field names and
`Fonte = "ViaCEP"`. -/
def buscaViaCEP (ctx : Context) (cep : String) (net : Net viaCEPResponse) :
    Endereco × Option FetchError :=
  let endereco := Endereco.zero
  match net ctx (viaCEPURL cep) with
  | .newRequestError msg => (endereco, some (.newRequest msg))
  | .transportError msg  => (endereco, some (.doRequest msg))
  | .response statusCode body =>
    if statusCode ≠ 200 then
      (endereco, some (.badStatus ("ViaCEP retornou status " ++ toString statusCode)))
    else
      match body with
      | .error msg => (endereco, some (.jsonDecode msg))
      | .ok data =>
        ({ CEP := data.Cep, Logradouro := data.Logradouro, Bairro := data.Bairro,
           Cidade := data.Localidade, UF := data.Uf, Fonte := "ViaCEP" }, none)

/-- The result a source goroutine reports: `Except.error` when the fetch
returned a non-nil error (sent to `errChan`), `Except.ok` with the
`Endereco` otherwise (sent to `resultChan`). -/
abbrev TaskResult := Except FetchError Endereco

/-- Converts a fetch function's `(Endereco, error)` pair into the message
the goroutine body sends: lines 162-175 and 177-189 send `err` to
`errChan` and return when `err != nil`, else send `end` to `resultChan`. -/
def taskReport (p : Endereco × Option FetchError) : TaskResult :=
  match p.2 with
  | some e => .error e
  | none   => .ok p.1

/-- The three cases of `main`'s `select` (lines 192-222): context
deadline, a value on `resultChan`, a value on `errChan`. -/
inductive SelectCase where
  | ctxDone
  | result
  | err
deriving Repr, DecidableEq

/-- Scheduler events of one race. `complete i` is source task `i`
finishing its fetch and performing its channel send; `deadline` is the
1-second context timer firing (closing `ctx.Done()`); `pick c` is the
coordinator's `select` attempting to commit, with `c` the adversary's
choice among the ready cases — Go's `select` chooses uniformly at random
when several cases are ready, so any ready case may be taken. -/
inductive Ev where
  | complete (i : Nat)
  | deadline
  | pick (c : SelectCase)
deriving Repr, DecidableEq

/-- The terminal outcome of the race: one constructor per `select`
branch of `main`. -/
inductive Outcome where
  | timedOut
  | success (e : Endereco)
  | failure (e : FetchError)
deriving Repr, DecidableEq

/-- The capacity of `resultChan` and `errChan`:
`make(chan Endereco, 2)` and `make(chan error, 2)` (lines 156-159). -/
def chanCap : Nat := 2

/-- State of `main`'s race: the two buffered channels (message queues and
closed flags — the program never closes either channel, the flags record
that), whether `ctx.Done()` has fired, which tasks have completed and
sent, whether any send ever blocked (found its buffer full), and the
outcome committed by the `select`, if any. -/
structure RaceState where
  resultChan   : List Endereco
  resultClosed : Bool
  errChan      : List FetchError
  errClosed    : Bool
  ctxDone      : Bool
  sent         : List Nat
  blockedSend  : Bool
  outcome      : Option Outcome
deriving Repr, DecidableEq

/-- The race's initial state: empty channels, live context, no task done,
no outcome. -/
def initState : RaceState :=
  { resultChan := [], resultClosed := false, errChan := [], errClosed := false,
    ctxDone := false, sent := [], blockedSend := false, outcome := none }

/-- A buffered-channel send of an `Endereco` on `resultChan`: enqueues
when the buffer has room, otherwise the sending goroutine blocks (recorded
in `blockedSend`; the message is not delivered). -/
def sendResult (s : RaceState) (e : Endereco) : RaceState :=
  if s.resultChan.length < chanCap then { s with resultChan := s.resultChan ++ [e] }
  else { s with blockedSend := true }

/-- A buffered-channel send of an error on `errChan`. -/
def sendErr (s : RaceState) (e : FetchError) : RaceState :=
  if s.errChan.length < chanCap then { s with errChan := s.errChan ++ [e] }
  else { s with blockedSend := true }

/-- Whether a `select` case is ready: `ctx.Done()` is readable once the
deadline fired (or `cancel` ran), and a channel receive is ready when its
buffer is nonempty. -/
def caseReady (s : RaceState) : SelectCase → Bool
  | .ctxDone => s.ctxDone
  | .result  => !s.resultChan.isEmpty
  | .err     => !s.errChan.isEmpty

/-- Go's `select` commits to some ready case; which one is
implementation-chosen when several are ready. The adversary's preferred
case wins when ready; otherwise any other ready case is taken (`none`
when no case is ready, i.e. the `select` keeps blocking). -/
def chooseReady (s : RaceState) (c : SelectCase) : Option SelectCase :=
  if caseReady s c then some c
  else if caseReady s .ctxDone then some .ctxDone
  else if caseReady s .result then some .result
  else if caseReady s .err then some .err
  else none

/-- Executes one `select` branch of `main` on a ready case: the
`ctx.Done()` branch logs the timeout message; the `resultChan` branch
receives the first queued `Endereco`, calls `cancel()` and logs it; the
`errChan` branch receives the first queued error, calls `cancel()` and
logs it. -/
def commitCase (s : RaceState) : SelectCase → RaceState
  | .ctxDone => { s with outcome := some .timedOut }
  | .result  =>
    match s.resultChan with
    | []        => s
    | e :: rest => { s with resultChan := rest, ctxDone := true, outcome := some (.success e) }
  | .err     =>
    match s.errChan with
    | []        => s
    | e :: rest => { s with errChan := rest, ctxDone := true, outcome := some (.failure e) }

/-- One scheduler step of the race, given the fixed fetch results `rs`
(one per source task). A task completes at most once and sends according
to its result; the deadline sets the context-done flag; a `select` commit
does nothing once an outcome exists (the `select` has already returned)
and otherwise commits to a ready case, if any. -/
def step (rs : List TaskResult) (s : RaceState) : Ev → RaceState
  | .complete i =>
    if i ∈ s.sent then s
    else
      match rs[i]? with
      | none             => s
      | some (.ok e)     => sendResult { s with sent := i :: s.sent } e
      | some (.error e)  => sendErr { s with sent := i :: s.sent } e
  | .deadline => { s with ctxDone := true }
  | .pick c =>
    if s.outcome.isSome then s
    else
      match chooseReady s c with
      | none    => s
      | some c' => commitCase s c'

/-- Runs a whole schedule from the initial race state. -/
def run (rs : List TaskResult) (sched : List Ev) : RaceState :=
  sched.foldl (step rs) initState

/-- The outcome the caller observes after a schedule, if the `select` has
committed. -/
def raceOutcome (rs : List TaskResult) (sched : List Ev) : Option Outcome :=
  (run rs sched).outcome

/-- The CEP `main` queries (line 147). -/
def mainCep : String := "06341650"

/-- The race deadline `main` uses, in milliseconds:
`context.WithTimeout(context.Background(), 1*time.Second)` (line 150). -/
def mainTimeoutMs : Nat := 1000

/-- The reports of the two source tasks `main` spawns, in spawn order:
the BrasilAPI goroutine (lines 162-175) and the ViaCEP goroutine
(lines 177-189), each fetching `mainCep`. -/
def mainRaceTasks (ctx : Context) (netB : Net brasilAPIResponse) (netV : Net viaCEPResponse) :
    List TaskResult :=
  [taskReport (buscaBrasilAPI ctx mainCep netB), taskReport (buscaViaCEP ctx mainCep netV)]

/-- What `main` does with the chosen outcome, branch by branch: the lines
it logs and the process exit status. Every branch only calls
`log.Println`/`log.Printf` and then falls off the end of `main`; the
program never calls `os.Exit` or `log.Fatal`, so the exit status is 0 in
every branch. -/
def report : Outcome → List String × Nat
  | .timedOut =>
    (["Timeout: Nenhuma resposta recebida em 1 segundo."], 0)
  | .success e =>
    (["Resultado recebido da " ++ e.Fonte ++ ":",
      "CEP: " ++ e.CEP ++ "\nLogradouro: " ++ e.Logradouro ++ "\nBairro: " ++ e.Bairro ++
        "\nCidade: " ++ e.Cidade ++ "\nUF: " ++ e.UF], 0)
  | .failure e =>
    (["Erro ao consultar: " ++ e.message], 0)

/-- `buscaBrasilAPI` of the second duplicated copy of the program
(lines 266-305 of the concatenated repository file): same URL, status
check, error paths and field mapping as copy 1. -/
def buscaBrasilAPIcopy2 (ctx : Context) (cep : String) (net : Net brasilAPIResponse) :
    Endereco × Option FetchError :=
  let endereco := Endereco.zero
  match net ctx ("https://brasilapi.com.br/api/cep/v1/" ++ cep) with
  | .newRequestError msg => (endereco, some (.newRequest msg))
  | .transportError msg  => (endereco, some (.doRequest msg))
  | .response statusCode body =>
    if statusCode ≠ 200 then
      (endereco, some (.badStatus ("BrasilAPI retornou status " ++ toString statusCode)))
    else
      match body with
      | .error msg => (endereco, some (.jsonDecode msg))
      | .ok data =>
        ({ CEP := data.Cep, Logradouro := data.Street, Bairro := data.Neighborhood,
           Cidade := data.City, UF := data.State, Fonte := "BrasilAPI" }, none)

/-- `buscaViaCEP` of the second duplicated copy (lines 308-345 of the
concatenated repository file). -/
def buscaViaCEPcopy2 (ctx : Context) (cep : String) (net : Net viaCEPResponse) :
    Endereco × Option FetchError :=
  let endereco := Endereco.zero
  match net ctx ("http://viacep.com.br/ws/" ++ cep ++ "/json/") with
  | .newRequestError msg => (endereco, some (.newRequest msg))
  | .transportError msg  => (endereco, some (.doRequest msg))
  | .response statusCode body =>
    if statusCode ≠ 200 then
      (endereco, some (.badStatus ("ViaCEP retornou status " ++ toString statusCode)))
    else
      match body with
      | .error msg => (endereco, some (.jsonDecode msg))
      | .ok data =>
        ({ CEP := data.Cep, Logradouro := data.Logradouro, Bairro := data.Bairro,
           Cidade := data.Localidade, UF := data.Uf, Fonte := "ViaCEP" }, none)

/-- The CEP the second copy's `main` queries (its line `cep := "06341650"`). -/
def mainCepCopy2 : String := "06341650"

/-- The second copy's deadline in milliseconds (`1*time.Second`). -/
def mainTimeoutMsCopy2 : Nat := 1000

/-- The second copy's channel capacity (`make(chan Endereco, 2)` and
`make(chan error, 2)`). -/
def chanCapCopy2 : Nat := 2

/-! ### Lemmas about the race state machine -/

/-- Once the `select` has committed an outcome, no later scheduler event
changes it: task completions only touch the channels, the deadline only
the context flag, and a `pick` is a no-op when an outcome exists. -/
theorem step_outcome_eq (rs : List TaskResult) (s : RaceState) (e : Ev) (o : Outcome)
    (h : s.outcome = some o) : (step rs s e).outcome = some o := by
  cases e with
  | complete i =>
    simp only [step]
    split
    · exact h
    · split
      · exact h
      · simp only [sendResult]
        split <;> simpa using h
      · simp only [sendErr]
        split <;> simpa using h
  | deadline => simpa [step] using h
  | pick c => simp [step, h]

/-- Outcome stability over any continuation of a schedule. -/
theorem foldl_outcome_eq (rs : List TaskResult) (sched : List Ev) (s : RaceState) (o : Outcome)
    (h : s.outcome = some o) : (sched.foldl (step rs) s).outcome = some o := by
  induction sched generalizing s with
  | nil => simpa using h
  | cons e tl ih => exact ih (step rs s e) (step_outcome_eq rs s e o h)

/-- The context-done flag is monotone: no event resets it. -/
theorem step_ctxDone_mono (rs : List TaskResult) (s : RaceState) (e : Ev)
    (h : s.ctxDone = true) : (step rs s e).ctxDone = true := by
  cases e with
  | complete i =>
    simp only [step]
    split
    · exact h
    · split
      · exact h
      · simp only [sendResult]
        split <;> simpa using h
      · simp only [sendErr]
        split <;> simpa using h
  | deadline => simp [step]
  | pick c =>
    simp only [step]
    split
    · exact h
    · split
      · exact h
      · rename_i c' _
        cases c' with
        | ctxDone => simpa [commitCase] using h
        | result =>
          simp only [commitCase]
          split
          · exact h
          · simp
        | err =>
          simp only [commitCase]
          split
          · exact h
          · simp

/-- The context-done flag stays set over any schedule suffix. -/
theorem foldl_ctxDone_mono (rs : List TaskResult) (sched : List Ev) (s : RaceState)
    (h : s.ctxDone = true) : (sched.foldl (step rs) s).ctxDone = true := by
  induction sched generalizing s with
  | nil => simpa using h
  | cons e tl ih => exact ih (step rs s e) (step_ctxDone_mono rs s e h)

/-- Committing a ready case always records an outcome. -/
theorem commitCase_outcome_isSome (s : RaceState) (c : SelectCase)
    (h : caseReady s c = true) : (commitCase s c).outcome.isSome = true := by
  cases c with
  | ctxDone => simp [commitCase]
  | result =>
    simp only [caseReady, Bool.not_eq_true', List.isEmpty_eq_false] at h
    match hr : s.resultChan with
    | [] => exact absurd hr h
    | e :: rest => simp [commitCase, hr]
  | err =>
    simp only [caseReady, Bool.not_eq_true', List.isEmpty_eq_false] at h
    match hr : s.errChan with
    | [] => exact absurd hr h
    | e :: rest => simp [commitCase, hr]

/-- A chosen case is always a ready one. -/
theorem chooseReady_ready (s : RaceState) (c c' : SelectCase)
    (h : chooseReady s c = some c') : caseReady s c' = true := by
  unfold chooseReady at h
  split at h
  · cases h; assumption
  · split at h
    · cases h; assumption
    · split at h
      · cases h; assumption
      · split at h
        · cases h; assumption
        · cases h

/-- Once the deadline has fired, the `select` never stays blocked: some
case is ready, so `chooseReady` picks one. -/
theorem chooseReady_isSome_of_ctxDone (s : RaceState) (c : SelectCase)
    (h : s.ctxDone = true) : (chooseReady s c).isSome = true := by
  unfold chooseReady
  split
  · rfl
  · have : caseReady s .ctxDone = true := h
    simp [this]

/-- A `select` attempt made after the deadline fired always leaves the
race with an outcome (either one already existed, or a ready case is
committed now). -/
theorem pick_commits (rs : List TaskResult) (s : RaceState) (c : SelectCase)
    (h : s.ctxDone = true) : ((step rs s (Ev.pick c)).outcome).isSome = true := by
  simp only [step]
  split
  · assumption
  · match hc : chooseReady s c with
    | none =>
      have := chooseReady_isSome_of_ctxDone s c h
      rw [hc] at this
      exact absurd this (by simp)
    | some c' =>
      simpa using commitCase_outcome_isSome s c' (chooseReady_ready s c c' hc)

/-- Outcome stability, phrased on `run` over an extended schedule. -/
theorem run_append_outcome (rs : List TaskResult) (sched extra : List Ev) (o : Outcome)
    (h : (run rs sched).outcome = some o) :
    (run rs (sched ++ extra)).outcome = some o := by
  unfold run at h ⊢
  rw [List.foldl_append]
  exact foldl_outcome_eq rs extra _ o h

/-- Any schedule that contains a deadline event followed (not necessarily
immediately) by a `select` attempt ends with an outcome. -/
theorem run_isSome_of_deadline_pick (rs : List TaskResult) (pre mid post : List Ev)
    (c : SelectCase) :
    ((run rs (pre ++ Ev.deadline :: mid ++ Ev.pick c :: post)).outcome).isSome = true := by
  unfold run
  rw [List.foldl_append, List.foldl_cons, List.foldl_append, List.foldl_cons]
  set s1 := List.foldl (step rs) initState pre with hs1
  have h2 : (step rs s1 Ev.deadline).ctxDone = true := by simp [step]
  have h3 : (List.foldl (step rs) (step rs s1 Ev.deadline) mid).ctxDone = true :=
    foldl_ctxDone_mono rs mid _ h2
  have h4 := pick_commits rs (List.foldl (step rs) (step rs s1 Ev.deadline) mid) c h3
  match ho : (step rs (List.foldl (step rs) (step rs s1 Ev.deadline) mid) (Ev.pick c)).outcome with
  | none => rw [ho] at h4; exact absurd h4 (by simp)
  | some o => simp [foldl_outcome_eq rs post _ o ho]

/-! ### Sample concrete inputs for witnesses -/

/-- A live background context. -/
def ctx0 : Context := { cancelled := false }

/-- An environment in which every request fails at the transport with the
context-deadline error message. -/
def netB0 : Net brasilAPIResponse := fun _ _ => .transportError "context deadline exceeded"

/-- ViaCEP version of `netB0`. -/
def netV0 : Net viaCEPResponse := fun _ _ => .transportError "context deadline exceeded"

/-- A sample decoded BrasilAPI payload. -/
def dataB0 : brasilAPIResponse :=
  { Cep := "06341-650", State := "SP", City := "Carapicuiba",
    Neighborhood := "Vila Municipal", Street := "Rua Manoel Ribeiro" }

/-- A sample decoded ViaCEP payload. -/
def dataV0 : viaCEPResponse :=
  { Cep := "06341-650", Logradouro := "Rua Manoel Ribeiro", Bairro := "Vila Municipal",
    Localidade := "Carapicuiba", Uf := "SP" }

/-- An environment in which every BrasilAPI request answers 200 with
`dataB0`. -/
def netBok : Net brasilAPIResponse := fun _ _ => .response 200 (.ok dataB0)

/-- An environment in which every ViaCEP request answers 200 with
`dataV0`. -/
def netVok : Net viaCEPResponse := fun _ _ => .response 200 (.ok dataV0)

/-! ### The channel-content invariant of the race -/

/-- The `Endereco` task `i` sends on `resultChan`, when its fetch
succeeded. -/
def okOut (rs : List TaskResult) (i : Nat) : Option Endereco :=
  match rs[i]? with
  | some (.ok e) => some e
  | _ => none

/-- The error task `i` sends on `errChan`, when its fetch failed. -/
def errOut (rs : List TaskResult) (i : Nat) : Option FetchError :=
  match rs[i]? with
  | some (.error e) => some e
  | _ => none

/-- The result message the `select` has already received off
`resultChan` under a given committed outcome, if any. -/
def consumedRes (o : Option Outcome) : List Endereco :=
  match o with
  | some (.success e) => [e]
  | _ => []

/-- The error message the `select` has already received off `errChan`
under a given committed outcome, if any. -/
def consumedErr (o : Option Outcome) : List FetchError :=
  match o with
  | some (.failure e) => [e]
  | _ => []

/-- Invariant of every reachable race state: completed tasks are
recorded once each and index real tasks; no send has ever blocked;
neither channel is closed; and each channel's history (the message the
`select` consumed, if any, followed by the still-queued buffer) is
exactly one message per completed task, on the channel matching that
task's fetch result, in completion order. -/
structure RaceInv (rs : List TaskResult) (s : RaceState) : Prop where
  sentNodup : s.sent.Nodup
  sentLt : ∀ i ∈ s.sent, i < rs.length
  notBlocked : s.blockedSend = false
  resOpen : s.resultClosed = false
  errOpen : s.errClosed = false
  resMsgs : consumedRes s.outcome ++ s.resultChan = s.sent.reverse.filterMap (okOut rs)
  errMsgs : consumedErr s.outcome ++ s.errChan = s.sent.reverse.filterMap (errOut rs)

/-- A duplicate-free list of indices below `n` has length at most `n`. -/
theorem nodup_lt_length_le (l : List Nat) (n : Nat) (hnd : l.Nodup)
    (hlt : ∀ i ∈ l, i < n) : l.length ≤ n := by
  have hsub : l.toFinset ⊆ Finset.range n := by
    intro x hx
    exact Finset.mem_range.mpr (hlt x (List.mem_toFinset.mp hx))
  have hcard := Finset.card_le_card hsub
  rwa [List.toFinset_card_of_nodup hnd, Finset.card_range] at hcard

/-- The queued part of `resultChan` never exceeds the number of
completed tasks. -/
theorem resultChan_length_le (rs : List TaskResult) (s : RaceState) (h : RaceInv rs s) :
    s.resultChan.length ≤ s.sent.length := by
  have hlen := congrArg List.length h.resMsgs
  rw [List.length_append] at hlen
  have hf := List.length_filterMap_le (okOut rs) s.sent.reverse
  rw [List.length_reverse] at hf
  omega

/-- The queued part of `errChan` never exceeds the number of completed
tasks. -/
theorem errChan_length_le (rs : List TaskResult) (s : RaceState) (h : RaceInv rs s) :
    s.errChan.length ≤ s.sent.length := by
  have hlen := congrArg List.length h.errMsgs
  rw [List.length_append] at hlen
  have hf := List.length_filterMap_le (errOut rs) s.sent.reverse
  rw [List.length_reverse] at hf
  omega

/-- Every scheduler step preserves the race invariant, provided the
channel capacity covers the number of source tasks. -/
theorem step_inv (rs : List TaskResult) (hrs : rs.length ≤ chanCap) (s : RaceState)
    (h : RaceInv rs s) (e : Ev) : RaceInv rs (step rs s e) := by
  cases e with
  | complete i =>
    simp only [step]
    split
    · exact h
    · rename_i hmem
      split
      · exact h
      · rename_i e hri
        -- fetch succeeded: the task sends `e` on resultChan
        have hi : i < rs.length := by
          by_contra hno
          rw [List.getElem?_eq_none (Nat.le_of_not_lt hno)] at hri
          cases hri
        have hnd : (i :: s.sent).Nodup := List.nodup_cons.mpr ⟨hmem, h.sentNodup⟩
        have hbd : ∀ j ∈ i :: s.sent, j < rs.length := by
          intro j hj
          rcases List.mem_cons.mp hj with rfl | hj'
          · exact hi
          · exact h.sentLt j hj'
        have hsentlen : s.sent.length + 1 ≤ rs.length := by
          simpa using nodup_lt_length_le (i :: s.sent) rs.length hnd hbd
        have hroom : s.resultChan.length < chanCap := by
          have := resultChan_length_le rs s h
          omega
        simp only [sendResult, if_pos hroom]
        refine ⟨hnd, hbd, h.notBlocked, h.resOpen, h.errOpen, ?_, ?_⟩
        · show consumedRes s.outcome ++ (s.resultChan ++ [e]) =
            (i :: s.sent).reverse.filterMap (okOut rs)
          rw [← List.append_assoc, h.resMsgs, List.reverse_cons, List.filterMap_append]
          simp [okOut, hri]
        · show consumedErr s.outcome ++ s.errChan =
            (i :: s.sent).reverse.filterMap (errOut rs)
          rw [h.errMsgs, List.reverse_cons, List.filterMap_append]
          simp [errOut, hri]
      · rename_i e hri
        -- fetch failed: the task sends the error on errChan
        have hi : i < rs.length := by
          by_contra hno
          rw [List.getElem?_eq_none (Nat.le_of_not_lt hno)] at hri
          cases hri
        have hnd : (i :: s.sent).Nodup := List.nodup_cons.mpr ⟨hmem, h.sentNodup⟩
        have hbd : ∀ j ∈ i :: s.sent, j < rs.length := by
          intro j hj
          rcases List.mem_cons.mp hj with rfl | hj'
          · exact hi
          · exact h.sentLt j hj'
        have hsentlen : s.sent.length + 1 ≤ rs.length := by
          simpa using nodup_lt_length_le (i :: s.sent) rs.length hnd hbd
        have hroom : s.errChan.length < chanCap := by
          have := errChan_length_le rs s h
          omega
        simp only [sendErr, if_pos hroom]
        refine ⟨hnd, hbd, h.notBlocked, h.resOpen, h.errOpen, ?_, ?_⟩
        · show consumedRes s.outcome ++ s.resultChan =
            (i :: s.sent).reverse.filterMap (okOut rs)
          rw [h.resMsgs, List.reverse_cons, List.filterMap_append]
          simp [okOut, hri]
        · show consumedErr s.outcome ++ (s.errChan ++ [e]) =
            (i :: s.sent).reverse.filterMap (errOut rs)
          rw [← List.append_assoc, h.errMsgs, List.reverse_cons, List.filterMap_append]
          simp [errOut, hri]
  | deadline =>
    exact ⟨h.sentNodup, h.sentLt, h.notBlocked, h.resOpen, h.errOpen, h.resMsgs, h.errMsgs⟩
  | pick c =>
    simp only [step]
    split
    · exact h
    · rename_i hno
      have hnone : s.outcome = none := by
        cases ho : s.outcome with
        | none => rfl
        | some o => rw [ho] at hno; simp at hno
      split
      · exact h
      · rename_i c' hc
        cases c' with
        | ctxDone =>
          refine ⟨h.sentNodup, h.sentLt, h.notBlocked, h.resOpen, h.errOpen, ?_, ?_⟩
          · show consumedRes (some .timedOut) ++ s.resultChan =
              s.sent.reverse.filterMap (okOut rs)
            have h2 := h.resMsgs
            rw [hnone] at h2
            simpa [consumedRes] using h2
          · show consumedErr (some .timedOut) ++ s.errChan =
              s.sent.reverse.filterMap (errOut rs)
            have h2 := h.errMsgs
            rw [hnone] at h2
            simpa [consumedErr] using h2
        | result =>
          simp only [commitCase]
          split
          · exact h
          · rename_i e rest hrc
            refine ⟨h.sentNodup, h.sentLt, h.notBlocked, h.resOpen, h.errOpen, ?_, ?_⟩
            · show consumedRes (some (.success e)) ++ rest =
                s.sent.reverse.filterMap (okOut rs)
              have h2 := h.resMsgs
              rw [hnone, hrc] at h2
              simpa [consumedRes] using h2
            · show consumedErr (some (.success e)) ++ s.errChan =
                s.sent.reverse.filterMap (errOut rs)
              have h2 := h.errMsgs
              rw [hnone] at h2
              simpa [consumedErr] using h2
        | err =>
          simp only [commitCase]
          split
          · exact h
          · rename_i e rest hrc
            refine ⟨h.sentNodup, h.sentLt, h.notBlocked, h.resOpen, h.errOpen, ?_, ?_⟩
            · show consumedRes (some (.failure e)) ++ s.resultChan =
                s.sent.reverse.filterMap (okOut rs)
              have h2 := h.resMsgs
              rw [hnone] at h2
              simpa [consumedRes] using h2
            · show consumedErr (some (.failure e)) ++ rest =
                s.sent.reverse.filterMap (errOut rs)
              have h2 := h.errMsgs
              rw [hnone, hrc] at h2
              simpa [consumedErr] using h2

/-- The race invariant holds from any invariant state over any schedule. -/
theorem foldl_inv (rs : List TaskResult) (hrs : rs.length ≤ chanCap) (sched : List Ev)
    (s : RaceState) (h : RaceInv rs s) : RaceInv rs (sched.foldl (step rs) s) := by
  induction sched generalizing s with
  | nil => simpa using h
  | cons e tl ih => exact ih (step rs s e) (step_inv rs hrs s h e)

/-- The race invariant holds after any schedule, for any task list that
fits the channel capacity. -/
theorem run_inv (rs : List TaskResult) (hrs : rs.length ≤ chanCap) (sched : List Ev) :
    RaceInv rs (run rs sched) := by
  refine foldl_inv rs hrs sched initState ⟨List.nodup_nil, ?_, rfl, rfl, rfl, rfl, rfl⟩
  intro i hi
  simp [initState] at hi

/-! ### The race with zero sources -/

/-- Invariant of a race over an empty task list: the channels stay empty
and the only outcome the `select` can ever commit is the timeout. -/
def ZeroInv (s : RaceState) : Prop :=
  s.resultChan = [] ∧ s.errChan = [] ∧
    (s.outcome = none ∨ s.outcome = some Outcome.timedOut)

/-- With no source tasks, every scheduler step preserves `ZeroInv`:
nothing ever arrives on either channel, so the only ready `select` case
is the context deadline. -/
theorem step_zeroInv (s : RaceState) (e : Ev) (h : ZeroInv s) :
    ZeroInv (step ([] : List TaskResult) s e) := by
  obtain ⟨hres, herr, hout⟩ := h
  cases e with
  | complete i =>
    simp only [step]
    split
    · exact ⟨hres, herr, hout⟩
    · simp only [List.getElem?_nil]
      exact ⟨hres, herr, hout⟩
  | deadline => exact ⟨hres, herr, hout⟩
  | pick c =>
    simp only [step]
    split
    · exact ⟨hres, herr, hout⟩
    · have hready : ∀ c', caseReady s c' = true → c' = SelectCase.ctxDone := by
        intro c' hc'
        cases c' with
        | ctxDone => rfl
        | result => simp [caseReady, hres] at hc'
        | err => simp [caseReady, herr] at hc'
      split
      · exact ⟨hres, herr, hout⟩
      · rename_i c' hc
        have := hready c' (chooseReady_ready s c c' hc)
        subst this
        exact ⟨hres, herr, Or.inr rfl⟩

/-- `ZeroInv` is preserved from any state over any schedule. -/
theorem foldl_zeroInv (sched : List Ev) (s : RaceState) (h : ZeroInv s) :
    ZeroInv (sched.foldl (step ([] : List TaskResult)) s) := by
  induction sched generalizing s with
  | nil => simpa using h
  | cons e tl ih => exact ih (step [] s e) (step_zeroInv s e h)

/-- With no source tasks the race either has not resolved yet or has
timed out, for every schedule. -/
theorem run_zero_sources (sched : List Ev) :
    ZeroInv (run ([] : List TaskResult) sched) :=
  foldl_zeroInv sched initState ⟨rfl, rfl, Or.inl rfl⟩

/-! ### Claim theorems -/

/-- C1: for every race run by `main` (any fetch environments, any
interleaving of the two source tasks, the deadline and the `select`),
exactly one outcome is produced: any schedule in which the deadline has
fired and the `select` subsequently runs ends with a committed outcome
(so exactly one of the three branches runs — the outcome records which),
and once an outcome is chosen, any further events, in particular a
source completing late, leave the observed outcome unchanged. -/
theorem race_exactly_one_outcome (ctx : Context) (netB : Net brasilAPIResponse)
    (netV : Net viaCEPResponse) :
    (∀ pre mid post c,
      ((run (mainRaceTasks ctx netB netV)
          (pre ++ Ev.deadline :: mid ++ Ev.pick c :: post)).outcome).isSome = true)
    ∧ (∀ sched extra o,
        raceOutcome (mainRaceTasks ctx netB netV) sched = some o →
        raceOutcome (mainRaceTasks ctx netB netV) (sched ++ extra) = some o) := by
  constructor
  · intro pre mid post c
    exact run_isSome_of_deadline_pick (mainRaceTasks ctx netB netV) pre mid post c
  · intro sched extra o h
    exact run_append_outcome (mainRaceTasks ctx netB netV) sched extra o h

/-- Witness for C1, at a concrete environment and schedule: a race whose
select runs after the deadline resolves, and a task completing after the
resolution does not change the outcome. -/
theorem race_exactly_one_outcome_witness :
    ((run (mainRaceTasks ctx0 netB0 netV0)
        ([] ++ Ev.deadline :: [] ++ Ev.pick SelectCase.ctxDone :: [])).outcome).isSome = true
    ∧ raceOutcome (mainRaceTasks ctx0 netB0 netV0)
        ([Ev.deadline, Ev.pick SelectCase.ctxDone] ++ [Ev.complete 0, Ev.complete 1]) =
        some Outcome.timedOut :=
  ⟨(race_exactly_one_outcome ctx0 netB0 netV0).1 [] [] [] SelectCase.ctxDone,
   (race_exactly_one_outcome ctx0 netB0 netV0).2
     [Ev.deadline, Ev.pick SelectCase.ctxDone] [Ev.complete 0, Ev.complete 1]
     Outcome.timedOut rfl⟩

/-- C2 (failing schedule): the BrasilAPI task's success report is
already queued on `resultChan` and the context is not yet done, then the
deadline fires, and the `select` — choosing among simultaneously ready
cases, as Go's `select` may — takes the `ctx.Done()` branch: the race
reports `TimedOut` even though a success was enqueued before the
deadline. The code has no drain of `resultChan` on the deadline branch,
so it does not guarantee the claimed behavior. -/
theorem timeout_despite_enqueued_success :
    (run (mainRaceTasks ctx0 netBok netV0) [Ev.complete 0]).resultChan =
      [(buscaBrasilAPI ctx0 mainCep netBok).1]
    ∧ (run (mainRaceTasks ctx0 netBok netV0) [Ev.complete 0]).ctxDone = false
    ∧ raceOutcome (mainRaceTasks ctx0 netBok netV0)
        [Ev.complete 0, Ev.deadline, Ev.pick SelectCase.ctxDone] = some Outcome.timedOut :=
  ⟨rfl, rfl, rfl⟩

/-- C3: on a 200 response whose body decodes, each fetch function
returns the normalized record with every field mapped verbatim from the
provider-specific response and the source name recorded, and a nil
error. -/
theorem fetch_success_normalizes (ctx : Context) (cep : String)
    (netB : Net brasilAPIResponse) (netV : Net viaCEPResponse)
    (dataB : brasilAPIResponse) (dataV : viaCEPResponse)
    (hB : netB ctx (brasilAPIURL cep) = .response 200 (.ok dataB))
    (hV : netV ctx (viaCEPURL cep) = .response 200 (.ok dataV)) :
    buscaBrasilAPI ctx cep netB =
      ({ CEP := dataB.Cep, Logradouro := dataB.Street, Bairro := dataB.Neighborhood,
         Cidade := dataB.City, UF := dataB.State, Fonte := "BrasilAPI" }, none)
    ∧ buscaViaCEP ctx cep netV =
      ({ CEP := dataV.Cep, Logradouro := dataV.Logradouro, Bairro := dataV.Bairro,
         Cidade := dataV.Localidade, UF := dataV.Uf, Fonte := "ViaCEP" }, none) := by
  constructor
  · simp [buscaBrasilAPI, hB]
  · simp [buscaViaCEP, hV]

/-- Witness for C3 at concrete environments answering 200 with sample
payloads. -/
theorem fetch_success_normalizes_witness :
    buscaBrasilAPI ctx0 mainCep netBok =
      ({ CEP := "06341-650", Logradouro := "Rua Manoel Ribeiro", Bairro := "Vila Municipal",
         Cidade := "Carapicuiba", UF := "SP", Fonte := "BrasilAPI" }, none)
    ∧ buscaViaCEP ctx0 mainCep netVok =
      ({ CEP := "06341-650", Logradouro := "Rua Manoel Ribeiro", Bairro := "Vila Municipal",
         Cidade := "Carapicuiba", UF := "SP", Fonte := "ViaCEP" }, none) :=
  fetch_success_normalizes ctx0 mainCep netBok netVok dataB0 dataV0 rfl rfl

/-- C4: whenever a fetch function returns a non-nil error — request
creation failure, transport error, non-200 status or decode failure —
the accompanying `Endereco` is exactly the zero value. -/
theorem fetch_error_returns_zero (ctx : Context) (cep : String)
    (netB : Net brasilAPIResponse) (netV : Net viaCEPResponse) :
    (∀ e, (buscaBrasilAPI ctx cep netB).2 = some e →
      (buscaBrasilAPI ctx cep netB).1 = Endereco.zero)
    ∧ (∀ e, (buscaViaCEP ctx cep netV).2 = some e →
      (buscaViaCEP ctx cep netV).1 = Endereco.zero) := by
  constructor
  · intro e h
    unfold buscaBrasilAPI at h ⊢
    cases hn : netB ctx (brasilAPIURL cep) with
    | newRequestError msg => simp [hn]
    | transportError msg => simp [hn]
    | response statusCode body =>
      rw [hn] at h
      by_cases hs : statusCode ≠ 200
      · simp [hn, hs]
      · cases body with
        | error msg => simp [hn, hs]
        | ok data => simp [hs] at h
  · intro e h
    unfold buscaViaCEP at h ⊢
    cases hn : netV ctx (viaCEPURL cep) with
    | newRequestError msg => simp [hn]
    | transportError msg => simp [hn]
    | response statusCode body =>
      rw [hn] at h
      by_cases hs : statusCode ≠ 200
      · simp [hn, hs]
      · cases body with
        | error msg => simp [hn, hs]
        | ok data => simp [hs] at h

/-- Witness for C4 at a concrete environment failing at the transport. -/
theorem fetch_error_returns_zero_witness :
    (buscaBrasilAPI ctx0 mainCep netB0).1 = Endereco.zero
    ∧ (buscaViaCEP ctx0 mainCep netV0).1 = Endereco.zero :=
  ⟨(fetch_error_returns_zero ctx0 mainCep netB0 netV0).1
      (FetchError.doRequest "context deadline exceeded") rfl,
   (fetch_error_returns_zero ctx0 mainCep netB0 netV0).2
      (FetchError.doRequest "context deadline exceeded") rfl⟩

/-- C5 (counterexample): a race over zero sources does not fail fast —
before the deadline no outcome is produced no matter how often the
`select` is attempted (the coordinator just blocks), and when the
deadline fires the race resolves to `TimedOut`, not to any
invalid-input error; indeed the program has no input-validation path
and no `InvalidInputError` at all. -/
theorem race_zero_sources_no_failfast :
    raceOutcome ([] : List TaskResult)
      [Ev.pick SelectCase.ctxDone, Ev.pick SelectCase.result, Ev.pick SelectCase.err] = none
    ∧ raceOutcome ([] : List TaskResult) [Ev.deadline, Ev.pick SelectCase.ctxDone] =
        some Outcome.timedOut :=
  ⟨rfl, rfl⟩

/-- C5 (amended): `main` performs no input validation — it always races
exactly two hardcoded sources with a fixed 1-second timeout and defines
no `InvalidInputError`; under the code's coordination structure, a race
over zero sources never produces any outcome other than a deadline
`TimedOut` (in particular it blocks rather than failing fast). -/
theorem race_no_input_validation (ctx : Context) (netB : Net brasilAPIResponse)
    (netV : Net viaCEPResponse) :
    (mainRaceTasks ctx netB netV).length = 2 ∧ mainTimeoutMs = 1000
    ∧ ∀ sched, raceOutcome ([] : List TaskResult) sched = none
        ∨ raceOutcome ([] : List TaskResult) sched = some Outcome.timedOut := by
  refine ⟨rfl, rfl, fun sched => ?_⟩
  exact (run_zero_sources sched).2.2

/-- C6 (counterexample): the exit status is 0 also when the race ends in
`Failure` or `TimedOut` — every `select` branch only logs and falls off
the end of `main`. -/
theorem exit_status_zero_on_failure :
    (report (Outcome.failure (FetchError.badStatus "BrasilAPI retornou status 404"))).2 = 0
    ∧ (report Outcome.timedOut).2 = 0 :=
  ⟨rfl, rfl⟩

/-- C6 (amended): the process exit status is 0 for every outcome:
each branch of `main`'s `select` logs its message and returns from
`main` normally; the program never calls `os.Exit` or `log.Fatal`. -/
theorem exit_status_always_zero (o : Outcome) : (report o).2 = 0 := by
  cases o <;> rfl

/-- C7: both completion channels are created with capacity 2, `main`
spawns exactly two source tasks, and under every schedule no task's
channel send ever finds its buffer full — no source task ever blocks on
reporting, even after the race has resolved and the coordinator stops
reading. -/
theorem sends_never_block (ctx : Context) (netB : Net brasilAPIResponse)
    (netV : Net viaCEPResponse) :
    chanCap = 2 ∧ (mainRaceTasks ctx netB netV).length = 2
    ∧ ∀ sched, (run (mainRaceTasks ctx netB netV) sched).blockedSend = false := by
  refine ⟨rfl, rfl, fun sched => ?_⟩
  exact (run_inv (mainRaceTasks ctx netB netV) (by simp [mainRaceTasks, chanCap]) sched).notBlocked

/-- C8: the two duplicated copies of the program are behaviorally
equivalent — for every context, CEP and environment the second copy's
fetch functions return exactly the same `(Endereco, error)` pair as the
first copy's, and the two `main`s race the same hardcoded CEP with the
same 1-second timeout (and the same channel capacity). -/
theorem duplicated_copies_equivalent :
    (∀ ctx cep net, buscaBrasilAPIcopy2 ctx cep net = buscaBrasilAPI ctx cep net)
    ∧ (∀ ctx cep net, buscaViaCEPcopy2 ctx cep net = buscaViaCEP ctx cep net)
    ∧ mainCepCopy2 = mainCep ∧ mainTimeoutMsCopy2 = mainTimeoutMs
    ∧ chanCapCopy2 = chanCap :=
  ⟨fun _ _ _ => rfl, fun _ _ _ => rfl, rfl, rfl, rfl⟩

/-- C9: for `main`'s two source tasks and every schedule: neither
channel is ever closed, every completed task is recorded exactly once,
and each channel's message history (consumed head plus queued buffer) is
exactly one message per completed task on the channel matching its fetch
result — an `Endereco` on `resultChan` when the fetch error was nil,
the error on `errChan` otherwise, never both and never zero. -/
theorem tasks_send_exactly_once (ctx : Context) (netB : Net brasilAPIResponse)
    (netV : Net viaCEPResponse) (sched : List Ev) :
    (run (mainRaceTasks ctx netB netV) sched).resultClosed = false
    ∧ (run (mainRaceTasks ctx netB netV) sched).errClosed = false
    ∧ (run (mainRaceTasks ctx netB netV) sched).sent.Nodup
    ∧ consumedRes (run (mainRaceTasks ctx netB netV) sched).outcome
        ++ (run (mainRaceTasks ctx netB netV) sched).resultChan
      = (run (mainRaceTasks ctx netB netV) sched).sent.reverse.filterMap
          (okOut (mainRaceTasks ctx netB netV))
    ∧ consumedErr (run (mainRaceTasks ctx netB netV) sched).outcome
        ++ (run (mainRaceTasks ctx netB netV) sched).errChan
      = (run (mainRaceTasks ctx netB netV) sched).sent.reverse.filterMap
          (errOut (mainRaceTasks ctx netB netV)) := by
  have h := run_inv (mainRaceTasks ctx netB netV) (by simp [mainRaceTasks, chanCap]) sched
  exact ⟨h.resOpen, h.errOpen, h.sentNodup, h.resMsgs, h.errMsgs⟩

/-- C10: the CEP query string is never validated or transformed: both
URLs interpolate the given string verbatim, and a fetch's entire result
is determined by the environment's answer on that URL — two arbitrary
CEP strings (including empty or malformed ones) with identical provider
answers produce identical results, so a bad query can only surface as a
provider/transport error or a timeout, never as an input-validation
error. -/
theorem cep_never_validated :
    (∀ cep, brasilAPIURL cep = "https://brasilapi.com.br/api/cep/v1/" ++ cep
      ∧ viaCEPURL cep = "http://viacep.com.br/ws/" ++ cep ++ "/json/")
    ∧ (∀ ctx ctx2 cep cep2 netB netB2,
        netB ctx (brasilAPIURL cep) = netB2 ctx2 (brasilAPIURL cep2) →
        buscaBrasilAPI ctx cep netB = buscaBrasilAPI ctx2 cep2 netB2)
    ∧ (∀ ctx ctx2 cep cep2 netV netV2,
        netV ctx (viaCEPURL cep) = netV2 ctx2 (viaCEPURL cep2) →
        buscaViaCEP ctx cep netV = buscaViaCEP ctx2 cep2 netV2) := by
  refine ⟨fun cep => ⟨rfl, rfl⟩, ?_, ?_⟩
  · intro ctx ctx2 cep cep2 netB netB2 h
    unfold buscaBrasilAPI
    rw [h]
  · intro ctx ctx2 cep cep2 netV netV2 h
    unfold buscaViaCEP
    rw [h]

/-- Witness for C10: the empty string and a malformed CEP behave
identically under a constant environment. -/
theorem cep_never_validated_witness :
    buscaBrasilAPI ctx0 "" netB0 = buscaBrasilAPI ctx0 "cep-invalido!" netB0
    ∧ buscaViaCEP ctx0 "" netV0 = buscaViaCEP ctx0 "cep-invalido!" netV0 :=
  ⟨cep_never_validated.2.1 ctx0 ctx0 "" "cep-invalido!" netB0 netB0 rfl,
   cep_never_validated.2.2 ctx0 ctx0 "" "cep-invalido!" netV0 netV0 rfl⟩
